import Mathlib

set_option maxRecDepth 8000

deriving instance DecidableEq for Except

namespace Wikigraph

/-! Shallow embedding of the wikigraph repository (src/url.rs, src/config.rs,
src/article.rs).  Rust strings are modelled as lists of characters; the
`HashMap` cache is an association list; `HashSet`s are duplicate-free lists
kept in first-insertion order; Rust `Result` plus panics become an `Except`
whose error type has a dedicated `panicked` constructor.  Loops without a
structural bound carry a fuel argument; running out of fuel is reported by
the distinct error `fuelOut`, which models a diverging Rust loop and is
unreachable for the bounded loops given their stated fuel. -/

/-- Rust `str`/`String`, as a list of characters. -/
abbrev Str := List Char

/-- The `URL` newtype of src/url.rs stores only the article body (the part
after the `/wiki/` article marker), so we model it by that body string. -/
abbrev URL := Str

/-- Constant `WIKI_DOMAIN` from src/config.rs. -/
def wikiDomain : Str := "https://en.wikipedia.org".toList

/-- Constant `WIKI_ARTICLE_PREFIX` from src/config.rs. -/
def wikiArticlePre : Str := "/wiki/".toList

/-- The single blacklisted suffix of src/config.rs. -/
def disambigSuf : Str := "_(disambiguation)".toList

/-- Constant `WIKI_ARTICLE_SUFFIX_BLACKLIST` from src/config.rs. -/
def wikiSuffixBlacklist : List Str := [disambigSuf]

/-- Constant `REFERENCE_PREFIX` from src/config.rs. -/
def refPre : Str := "<a href=\"".toList

/-- The literal pattern `<a href="/wiki/` tested in `Article::parse`. -/
def wikiRefPat : Str := "<a href=\"/wiki/".toList

/-- Errors `URLErr` from src/url.rs. -/
inductive URLErr
  | missingPre
  | blacklistedPre (s : Str)
  | blacklistedSuf (s : Str)
deriving DecidableEq

/-- Rust `str::strip_prefix`. -/
def dropPreOpt (p s : Str) : Option Str :=
  if p.isPrefixOf s then some (s.drop p.length) else none

/-- The optional `WIKI_DOMAIN` strip at the top of `URL::extract_body`
(`if let Some(s) = url.strip_prefix(WIKI_DOMAIN) { url = s }`). -/
def stripDomainOpt (s : Str) : Str :=
  match dropPreOpt wikiDomain s with
  | some r => r
  | none => s

/-- Rust `str::contains` specialised to a single-character needle, as used by
`url.contains(":")`. -/
def hasChar (c : Char) (s : Str) : Bool := s.any (fun x => x == c)

/-- Rust `url.split('#').next().unwrap()`: everything before the first `#`. -/
def dropFrag (s : Str) : Str := s.takeWhile (fun c => !(c == '#'))

/-- Model of `URL::extract_body` from src/url.rs.  In the source the loop over
`WIKI_ARTICLE_PREFIX_BLACKLIST` is commented out, leaving only the bare
`url.contains(":")` test, and the suffix-blacklist check runs before the
fragment split. -/
def extract_body (url : Str) : Except URLErr Str :=
  let u1 := stripDomainOpt url
  match dropPreOpt wikiArticlePre u1 with
  | none => .error .missingPre
  | some u2 =>
    if hasChar ':' u2 then .error (.blacklistedPre [])
    else
      match wikiSuffixBlacklist.find? (fun b => b.isSuffixOf u2) with
      | some b => .error (.blacklistedSuf b)
      | none => .ok (dropFrag u2)

/-- Model of `URL::new` from src/url.rs; the returned `URL` is the extracted body. -/
def URLnew (s : Str) : Except URLErr Str := extract_body s

/-- Model of `URL::to_string` from src/url.rs. -/
def urlToString (u : URL) : Str := wikiDomain ++ wikiArticlePre ++ u

/-- The `Article` struct of src/article.rs.  Its `HashSet` of references is a
duplicate-free list in first-insertion order. -/
structure Article where
  url : URL
  references : List URL
deriving DecidableEq

/-- Errors and panics of the collector pipeline: `UnexpectedEOL` is
`ArticleErr::UnexpectedEOL`, `fetchFail` stands for a failed transport
request, `panicked` models a Rust panic (`expect`/`unwrap`), and `fuelOut`
models a Rust loop that never terminates. -/
inductive CErr
  | UnexpectedEOL
  | fetchFail
  | panicked (msg : String)
  | fuelOut
deriving DecidableEq

/-- One step of `HashSet::insert` on a set-as-list (no-op when present,
append when absent). -/
def insertNew (u : URL) (l : List URL) : List URL :=
  if u ∈ l then l else l ++ [u]

/-- Index of the first `"` character, for `line.find('"')`. -/
def quoteIdx (s : Str) : Option Nat := s.findIdx? (fun c => c == '"')

/-- The inner scanning loop of `Article::parse` over one line.  The fuel is
the initial line length: every iteration removes at least one character
(either the nine-character `REFERENCE_PREFIX` plus the capture, or a single
character), so the fuel is never exhausted when it starts at the line
length. -/
def scanLineF : Nat → Str → List URL → Except CErr (List URL)
  | _, [], refs => .ok refs
  | 0, _, refs => .ok refs
  | f + 1, line, refs =>
    if wikiRefPat.isPrefixOf line then
      let rest := line.drop refPre.length
      match quoteIdx rest with
      | none => .error .UnexpectedEOL
      | some e =>
        let refs2 :=
          match URLnew (rest.take e) with
          | .ok u => insertNew u refs
          | .error _ => refs
        scanLineF f (rest.drop e) refs2
    else scanLineF f (line.drop 1) refs

/-- Scan one line (Rust: the `while !line.is_empty()` loop body). -/
def scanLine (line : Str) (refs : List URL) : Except CErr (List URL) :=
  scanLineF line.length line refs

/-- Rust `str::lines`: split on newline characters. -/
def linesOf : Str → List Str
  | [] => [[]]
  | c :: rest =>
    let r := linesOf rest
    if c == '\n' then [] :: r
    else (c :: r.headD []) :: r.tail

/-- Fold the line scanner over all lines, propagating the first error. -/
def scanLines : List Str → List URL → Except CErr (List URL)
  | [], refs => .ok refs
  | l :: rest, refs =>
    match scanLine l refs with
    | .error e => .error e
    | .ok refs2 => scanLines rest refs2

/-- Model of `Article::parse` from src/article.rs: scan the markup line by line for
`<a href="/wiki/` anchors, capture the quoted path, keep the captures that
`URL::new` accepts, and fail only when a line ends inside a capture. -/
def Article.parse (url : URL) (site : Str) : Except CErr Article :=
  match scanLines (linesOf site) [] with
  | .error e => .error e
  | .ok refs => .ok ⟨url, refs⟩

/-- The transport collaborator: for each requested URL either the reference
list of the fetched-and-parsed article, or a fetch/parse failure.  This is
the composition `get_uncached = Article::parse ∘ reqwest GET`, abstracted:
`Article::parse` always stamps the requested URL into the returned article,
so only the reference list is free. -/
abbrev Env := URL → Except CErr (List URL)

/-- The mutable state of a `Collector` (src/article.rs): the cache, the
`processed` counter, and — as instrumentation corresponding to the spec's
fetch-count stub transport — the log of transport fetches issued. -/
structure CState where
  cache : List (URL × Article)
  processed : Nat
  fetchLog : List URL
deriving DecidableEq

/-- Model of `Collector::new()`. -/
def c0 : CState := ⟨[], 0, []⟩

/-- Model of `HashMap::get` on the association-list cache. -/
def cacheGet (cache : List (URL × Article)) (u : URL) : Option Article :=
  (cache.find? (fun p => p.1 == u)).map (fun p => p.2)

/-- Model of `Collector::get_uncached`: one transport fetch plus parse. -/
def getUncached (env : Env) (u : URL) : Except CErr Article :=
  match env u with
  | .error e => .error e
  | .ok refs => .ok ⟨u, refs⟩

namespace Collector

/-- Model of `Collector::get` from src/article.rs: bump `processed`; serve a cache
hit without fetching; otherwise fetch, insert into the cache and return. -/
def get (env : Env) (c : CState) (u : URL) : Except CErr Article × CState :=
  let c1 : CState := { c with processed := c.processed + 1 }
  match cacheGet c1.cache u with
  | some a => (.ok a, c1)
  | none =>
    match env u with
    | .error e => (.error e, { c1 with fetchLog := c1.fetchLog ++ [u] })
    | .ok refs =>
      (.ok ⟨u, refs⟩,
        { c1 with
          cache := (u, (⟨u, refs⟩ : Article)) :: c1.cache
          fetchLog := c1.fetchLog ++ [u] })

/-- Model of `Collector::get_list_stable` from src/article.rs: `get` each id in input
order, short-circuiting on the first error. -/
def get_list_stable (env : Env) : CState → List URL → Except CErr (List Article) × CState
  | c, [] => (.ok [], c)
  | c, u :: rest =>
    match get env c u with
    | (.error e, c2) => (.error e, c2)
    | (.ok a, c2) =>
      match get_list_stable env c2 rest with
      | (.ok l, c3) => (.ok (a :: l), c3)
      | (.error e, c3) => (.error e, c3)

/-- The result-scanning loop of `Collector::get_list`: walk the zipped
(url, fetch result) pairs; insert each success into the cache as it is
scanned; return the first error found.  The cache insertions made before
the first error persist (the Rust loop mutates `self.cache` in place). -/
def scanRes : List (URL × Except CErr Article) → CState → Except CErr (List Article) × CState
  | [], c => (.ok [], c)
  | (x, .ok y) :: rest, c =>
    let c2 : CState := { c with cache := (x, y) :: c.cache }
    match scanRes rest c2 with
    | (.ok ys, c3) => (.ok (y :: ys), c3)
    | (.error e, c3) => (.error e, c3)
  | (_, .error e) :: _, c => (.error e, c)

/-- Model of `Collector::get_list` from src/article.rs (the concurrent variant):
partition against the current cache, fetch every uncached id (all fetches
run — `join_all`), then scan the results in order. -/
def get_list (env : Env) (c : CState) (urls : List URL) : Except CErr (List Article) × CState :=
  let c1 : CState := { c with processed := c.processed + urls.length }
  let ys0 := urls.filterMap (fun x => cacheGet c1.cache x)
  let xs := urls.filter (fun x => (cacheGet c1.cache x).isNone)
  let res := xs.map (getUncached env)
  let c2 : CState := { c1 with fetchLog := c1.fetchLog ++ xs }
  match scanRes (xs.zip res) c2 with
  | (.ok fetched, c3) => (.ok (ys0 ++ fetched), c3)
  | (.error e, c3) => (.error e, c3)

/-- One `if ns.insert(u) { new_ts.insert(u); }` step of the frontier rounds:
the pair is (visited set `ns`, next frontier `new_ts`). -/
def discStep (p : List URL × List URL) (u : URL) : List URL × List URL :=
  if u ∈ p.1 then p else (p.1 ++ [u], p.2 ++ [u])

/-- The reference-discovery double loop shared by `get_neighbourhood` and
`get_path`: fold every reference of every fetched article through
`discStep`. -/
def discover (arts : List Article) (p : List URL × List URL) : List URL × List URL :=
  arts.foldl (fun q a => a.references.foldl discStep q) p

/-- One round of frontier expansion (shared by `get_neighbourhood` and
`get_path`): fold the frontier into the visited set, batch-fetch it, and
discover the next frontier.  Returns (next frontier, visited set). -/
def nbRound (env : Env) (c : CState) (ts ns : List URL) :
    Except CErr (List URL × List URL) × CState :=
  let ns1 := ts.foldl (fun acc t => insertNew t acc) ns
  match get_list env c ts with
  | (.error e, c2) => (.error e, c2)
  | (.ok arts, c2) =>
    let p := discover arts (ns1, [])
    (.ok (p.2, p.1), c2)

/-- The `for _ in 1..depth` loop of `Collector::get_neighbourhood`: a fixed
number of rounds, returning the visited set. -/
def nbLoop (env : Env) : Nat → CState → List URL → List URL → Except CErr (List URL) × CState
  | 0, c, _, ns => (.ok ns, c)
  | k + 1, c, ts, ns =>
    match nbRound env c ts ns with
    | (.error e, c2) => (.error e, c2)
    | (.ok (ts2, ns2), c2) => nbLoop env k c2 ts2 ns2

/-- Model of `Collector::get_neighbourhood` from src/article.rs: `depth - 1` rounds
from the frontier `{url}`, then a batch fetch of the visited set. -/
def get_neighbourhood (env : Env) (c : CState) (u : URL) (depth : Nat) :
    Except CErr (List Article) × CState :=
  match nbLoop env (depth - 1) c [u] [] with
  | (.error e, c2) => (.error e, c2)
  | (.ok ns, c2) => get_list env c2 ns

/-- The `while !ts.contains(tg)` loop of `Collector::get_path`, with fuel
(the Rust loop spins forever when the target is unreachable).  Returns the
visited set handed on to `find_path`. -/
def gpLoop (env : Env) (tg : URL) : Nat → CState → List URL → List URL →
    Except CErr (List URL) × CState
  | 0, c, _, _ => (.error .fuelOut, c)
  | k + 1, c, ts, ns =>
    if tg ∈ ts then (.ok ns, c)
    else
      match nbRound env c ts ns with
      | (.error e, c2) => (.error e, c2)
      | (.ok (ts2, ns2), c2) => gpLoop env tg k c2 ts2 ns2

/-- Lexicographic list-of-characters order used by `ns.sort()`. -/
def strLeB : Str → Str → Bool
  | [], _ => true
  | _ :: _, [] => false
  | a :: l1, b :: l2 => if a = b then strLeB l1 l2 else decide (a < b)

/-- Insertion into a sorted list. -/
def insSorted (x : URL) : List URL → List URL
  | [] => [x]
  | y :: ys => if strLeB x y then x :: y :: ys else y :: insSorted x ys

/-- Model of `Vec::sort` on the node list (insertion sort; the claims it serves are
order-insensitive or fully concrete). -/
def sortUrls (l : List URL) : List URL := l.foldr insSorted []

/-- Model of `ns.binary_search(x)` on the sorted duplicate-free node list: the index
of the element equal to `x`, if any. -/
def idxOf (ns : List URL) (x : URL) : Option Nat := ns.findIdx? (fun y => y == x)

/-- Model of `neighs` from src/article.rs: indices `i` with `adj[l*v + i]`. -/
def neighsOf (adj : List Bool) (l v : Nat) : List Nat :=
  (List.range l).filter (fun i => adj.getD (l * v + i) false)

/-- The adjacency-building BFS loop of `Collector::find_path`
(`while !seen[tg_idx]`): pop the queue (panic when empty), fetch the node,
record an edge to every reference inside the node set, and enqueue unseen
endpoints.  Each iteration pops one element and at most `l` nodes are ever
enqueued, so fuel `l + 2` is never exhausted. -/
def fpLoop (env : Env) (ns : List URL) (l tgIdx : Nat) :
    Nat → CState → List Bool → List Bool → List Nat → Except CErr (List Bool) × CState
  | 0, c, _, _, _ => (.error .fuelOut, c)
  | f + 1, c, adj, seen, q =>
    if seen.getD tgIdx false then (.ok adj, c)
    else
      match q with
      | [] => (.error (.panicked "Target could not be visited before exhausting neighbourhood."), c)
      | v :: q' =>
        match get env c (ns.getD v []) with
        | (.error e, c2) => (.error e, c2)
        | (.ok a, c2) =>
          let st := a.references.foldl
            (fun (st : List Bool × List Bool × List Nat) r =>
              match idxOf ns r with
              | none => st
              | some k =>
                let adj2 := st.1.set (l * v + k) true
                if st.2.1.getD k false then (adj2, st.2.1, st.2.2)
                else (adj2, st.2.1.set k true, st.2.2 ++ [k]))
            (adj, seen, q')
          fpLoop env ns l tgIdx f c2 st.1 st.2.1 st.2.2

/-- The main relaxation loop of `binary_dijkstra`
(`while dist[tg] < 0 && !q.is_empty()`).  In the source `dist` is created
as `vec![0; l]`, so `dist[tg] < 0` is false on entry and this loop never
runs; it is embedded in full nonetheless. -/
def bdMain (adj : List Bool) (l tg : Nat) :
    Nat → List Int → List (Option Nat) → List Bool → List Nat →
    Except CErr (List Int × List (Option Nat) × List Bool × List Nat)
  | 0, _, _, _, _ => .error .fuelOut
  | f + 1, dist, fr, visited, q =>
    if dist.getD tg 0 < 0 then
      match q with
      | [] => .ok (dist, fr, visited, q)
      | v :: q' =>
        match fr.getD v none with
        | none => .error (.panicked "Option unwrap on None")
        | some p =>
          let dist2 := dist.set v (dist.getD p 0 + 1)
          let visited2 := visited.set v true
          let st := (neighsOf adj l v).foldl
            (fun (st : List (Option Nat) × List Nat) n =>
              match st.1.getD n none with
              | none => (st.1.set n (some v), st.2 ++ [n])
              | some _ => st)
            (fr, q')
          bdMain adj l tg f dist2 st.1 visited2 st.2
    else .ok (dist, fr, visited, q)

/-- The path-reconstruction loop of `binary_dijkstra`
(`while v != og { path.push(v); v = from[v].unwrap(); }`); the final
`path.reverse()` is applied by the caller. -/
def bdRecon (fr : List (Option Nat)) (og : Nat) :
    Nat → Nat → List Nat → Except CErr (List Nat)
  | 0, _, _ => .error .fuelOut
  | f + 1, v, path =>
    if v = og then .ok path
    else
      match fr.getD v none with
      | none => .error (.panicked "Option unwrap on None")
      | some p => bdRecon fr og f p (path ++ [v])

/-- Model of `binary_dijkstra` from src/article.rs.  `.ok none` is the Rust `None`
returned on a malformed input; a panic inside the function surfaces as
`.error (.panicked _)`.  Note the source initialises `dist` to all zeroes
(`vec![0; l]`) although its own comment describes `-1` as infinity. -/
def binary_dijkstra (adj : List Bool) (l og tg : Nat) : Except CErr (Option (List Nat)) :=
  if og ≥ l ∨ tg ≥ l then .ok none
  else if adj.length ≠ l * l then .ok none
  else
    let visited0 := (List.replicate l false).set og true
    let dist0 : List Int := (List.replicate l (0 : Int)).set og 0
    let ogN := neighsOf adj l og
    let fr0 := ogN.foldl (fun f n => f.set n (some og)) (List.replicate l none)
    match bdMain adj l tg (l * l + l + 1) dist0 fr0 visited0 ogN with
    | .error e => .error e
    | .ok (_, fr, _, _) =>
      match bdRecon fr og (l + 1) tg [] with
      | .error e => .error e
      | .ok p => .ok (some p.reverse)

/-- The final loop of `find_path`: `get` the article at each path index. -/
def collectPath (env : Env) : CState → List URL → List Nat → Except CErr (List Article) × CState
  | c, _, [] => (.ok [], c)
  | c, ns, i :: rest =>
    match get env c (ns.getD i []) with
    | (.error e, c2) => (.error e, c2)
    | (.ok a, c2) =>
      match collectPath env c2 ns rest with
      | (.ok l, c3) => (.ok (a :: l), c3)
      | (.error e, c3) => (.error e, c3)

/-- Model of `Collector::find_path` from src/article.rs: sort the node set, locate
origin and target by binary search (panicking when absent), build the local
adjacency matrix by BFS, run `binary_dijkstra`, and fetch the articles on
the reconstructed path. -/
def find_path (env : Env) (c : CState) (og tg : URL) (ns0 : List URL) :
    Except CErr (List Article) × CState :=
  let ns := sortUrls ns0
  let l := ns.length
  let adj0 := List.replicate (l * l) false
  let seen0 := List.replicate l false
  match idxOf ns og with
  | none => (.error (.panicked "Origin for required path is not in given neighbourhood."), c)
  | some ogIdx =>
    match idxOf ns tg with
    | none => (.error (.panicked "Target for required path is not in given neighbourhood."), c)
    | some tgIdx =>
      match fpLoop env ns l tgIdx (l + 2) c adj0 (seen0.set ogIdx true) [ogIdx] with
      | (.error e, c2) => (.error e, c2)
      | (.ok adj, c2) =>
        match binary_dijkstra adj l ogIdx tgIdx with
        | .error e => (.error e, c2)
        | .ok none => (.error (.panicked "Option unwrap on None"), c2)
        | .ok (some bd) => collectPath env c2 ns bd

/-- Model of `Collector::get_path` from src/article.rs: expand the frontier until it
contains the target, then hand the visited set to `find_path`. -/
def get_path (env : Env) (fuel : Nat) (c : CState) (og tg : URL) :
    Except CErr (List Article) × CState :=
  match gpLoop env tg fuel c [og] [] with
  | (.error e, c2) => (.error e, c2)
  | (.ok ns, c2) => find_path env c2 og tg ns

end Collector

/-! Concrete fixtures used by witnesses and counterexamples. -/

def uA : URL := "A".toList
def uB : URL := "B".toList
def uC : URL := "C".toList
def uD : URL := "D".toList
def uE : URL := "E".toList
def uF : URL := "F".toList

/-- Transport stub for the batch-failure scenarios: article `A` has no
references, everything else fails to fetch. -/
def envC1 : Env := fun u => if u = uA then .ok [] else .error .fetchFail

/-- Transport stub with the 6-node graph of the shortest-path test: a unique
3-hop path A to B to C to F and a longer alternative A to D to E to C to F.  -/
def envC2 : Env := fun u =>
  if u = uA then .ok [uB, uD]
  else if u = uB then .ok [uC]
  else if u = uC then .ok [uF]
  else if u = uD then .ok [uE]
  else if u = uE then .ok [uC]
  else if u = uF then .ok []
  else .error .fetchFail

/-- Transport stub of a 2-node graph: `A` references `B`, `B` nothing. -/
def envC3 : Env := fun u =>
  if u = uA then .ok [uB]
  else if u = uB then .ok []
  else .error .fetchFail

/-! General-purpose lemmas about the embedding. -/

/-- Stripping a literal prefix from its own extension. -/
theorem dropPreOpt_append (p r : Str) : dropPreOpt p (p ++ r) = some r := by
  simp [dropPreOpt, List.isPrefixOf_iff_prefix]

/-- The optional domain strip removes the domain when it is present. -/
theorem stripDomainOpt_append (x : Str) : stripDomainOpt (wikiDomain ++ x) = x := by
  simp [stripDomainOpt, dropPreOpt_append]

/-- The domain is not a prefix of a `/wiki/…` path, so the optional strip
leaves such a path alone. -/
theorem dropPreOpt_dom_pre (body : Str) :
    dropPreOpt wikiDomain (wikiArticlePre ++ body) = none := rfl

/-- A fragment-free string survives the fragment split unchanged. -/
theorem dropFrag_eq_self (s : Str) (h : ∀ c ∈ s, (c == '#') = false) : dropFrag s = s := by
  induction s with
  | nil => rfl
  | cons a t ih =>
    simp only [dropFrag, List.takeWhile_cons]
    rw [h a (by simp)]
    simpa [dropFrag] using ih fun c hc => h c (by simp [hc])

/-- The result-scanning loop of `get_list` on a pair list whose first error
sits after `pre` successful fetches: it reports that first error, and the
cache keeps exactly the `pre` articles inserted before the error was
reached. -/
theorem scanRes_firstError (pre : List (URL × Article)) (x : URL) (e : CErr)
    (post : List (URL × Except CErr Article)) :
    ∀ c : CState,
      Collector.scanRes (pre.map (fun p => (p.1, Except.ok p.2)) ++ (x, Except.error e) :: post) c
        = (.error e, { c with cache := pre.reverse ++ c.cache }) := by
  induction pre with
  | nil => intro c; simp [Collector.scanRes]
  | cons p t ih =>
    intro c
    simp only [List.map_cons, List.cons_append, Collector.scanRes, List.append_eq]
    rw [ih]
    simp [List.append_assoc]

/-- The `ns.insert`/`new_ts.insert` fold keeps the next frontier inside the
visited set. -/
theorem foldl_discStep_sub (l : List URL) :
    ∀ p : List URL × List URL, (∀ x ∈ p.2, x ∈ p.1) →
      ∀ x ∈ (l.foldl Collector.discStep p).2, x ∈ (l.foldl Collector.discStep p).1 := by
  induction l with
  | nil => intro p h; simpa using h
  | cons a t ih =>
    intro p h
    simp only [List.foldl_cons]
    apply ih
    unfold Collector.discStep
    split
    · exact h
    · intro x hx
      rcases List.mem_append.1 hx with h1 | h1
      · exact List.mem_append_left _ (h x h1)
      · exact List.mem_append_right _ h1

/-- Visited-set membership is preserved along the discovery fold. -/
theorem foldl_discStep_mono (l : List URL) :
    ∀ p : List URL × List URL, ∀ x, x ∈ p.1 → x ∈ (l.foldl Collector.discStep p).1 := by
  induction l with
  | nil => intro p x h; simpa using h
  | cons a t ih =>
    intro p x h
    simp only [List.foldl_cons]
    apply ih
    unfold Collector.discStep
    split
    · exact h
    · exact List.mem_append_left _ h

/-- Every reference fed through the discovery fold ends up in the visited
set. -/
theorem foldl_discStep_mem (l : List URL) :
    ∀ p : List URL × List URL, ∀ x ∈ l, x ∈ (l.foldl Collector.discStep p).1 := by
  induction l with
  | nil => simp
  | cons a t ih =>
    intro p x hx
    simp only [List.foldl_cons]
    rcases List.mem_cons.1 hx with rfl | h
    · apply foldl_discStep_mono
      unfold Collector.discStep
      split
      · assumption
      · exact List.mem_append_right _ (by simp)
    · exact ih _ x h

/-- Lemma: `discover` keeps the next frontier inside the visited set. -/
theorem discover_sub (arts : List Article) :
    ∀ p, (∀ x ∈ p.2, x ∈ p.1) →
      ∀ x ∈ (Collector.discover arts p).2, x ∈ (Collector.discover arts p).1 := by
  induction arts with
  | nil => intro p h; simpa [Collector.discover] using h
  | cons a t ih =>
    intro p h
    simp only [Collector.discover, List.foldl_cons] at *
    exact ih _ (foldl_discStep_sub _ _ h)

/-- A successful expansion round returns a next frontier that is contained
in the returned visited set. -/
theorem nbRound_sub (env : Env) (c : CState) (ts ns ts2 ns2 : List URL) (c2 : CState)
    (h : Collector.nbRound env c ts ns = (.ok (ts2, ns2), c2)) :
    ∀ x ∈ ts2, x ∈ ns2 := by
  unfold Collector.nbRound at h
  split at h
  · simp at h
  · simp only [Prod.mk.injEq, Except.ok.injEq] at h
    obtain ⟨⟨h1, h2⟩, _⟩ := h
    subst h1; subst h2
    exact discover_sub _ _ (by simp)

/-- Once every frontier node is already in the visited set, a terminating
`get_path` expansion loop returns a visited set containing the target. -/
theorem gpLoop_mem (env : Env) (tg : URL) :
    ∀ (fuel : Nat) (c : CState) (ts ns ns' : List URL) (c' : CState),
      (∀ x ∈ ts, x ∈ ns) →
      Collector.gpLoop env tg fuel c ts ns = (.ok ns', c') → tg ∈ ns' := by
  intro fuel
  induction fuel with
  | zero => intro c ts ns ns' c' _ h; simp [Collector.gpLoop] at h
  | succ k ih =>
    intro c ts ns ns' c' hsub h
    unfold Collector.gpLoop at h
    split at h
    · rename_i htg
      simp only [Prod.mk.injEq, Except.ok.injEq] at h
      obtain ⟨h1, _⟩ := h
      subst h1
      exact hsub tg htg
    · split at h
      · simp at h
      · rename_i ts2 ns2 c2 heq
        exact ih _ _ _ _ _ (nbRound_sub env c ts ns ts2 ns2 c2 heq) h

/-! Claim theorems. -/

/-- Claim C1, counterexample: a two-element batch on an empty cache in which
`A` fetches fine but `B` fails.  The call does fail, yet the cache of the
resulting collector contains the article for `A` that was fetched in the
failed batch — contradicting the claim that the cache contains none of the
articles of a failed batch. -/
theorem c1_counterexample :
    (Collector.get_list envC1 c0 [uA, uB]).1 = .error .fetchFail ∧
    cacheGet (Collector.get_list envC1 c0 [uA, uB]).2.cache uA = some ⟨uA, []⟩ := by
  exact ⟨by decide, by decide⟩

/-- Claim C1, amended: when the zipped uncached fetch results consist of
`pre` successes followed by the first error `e`, `get_list` fails with `e`
and returns no articles, every uncached fetch is still issued (the fetch
log grows by all of `xs`), but the cache is extended with exactly the
successfully fetched articles scanned before the first error — it is not
left untouched. -/
theorem c1_all_or_nothing_amended (env : Env) (c : CState) (urls xs : List URL)
    (pre : List (URL × Article)) (x : URL) (e : CErr)
    (post : List (URL × Except CErr Article))
    (hxs : urls.filter (fun u => (cacheGet c.cache u).isNone) = xs)
    (hscan : xs.zip (xs.map (getUncached env))
        = pre.map (fun p => (p.1, Except.ok p.2)) ++ (x, Except.error e) :: post) :
    (Collector.get_list env c urls).1 = .error e ∧
    (Collector.get_list env c urls).2.cache = pre.reverse ++ c.cache ∧
    (Collector.get_list env c urls).2.fetchLog = c.fetchLog ++ xs := by
  unfold Collector.get_list
  dsimp only
  rw [hxs, hscan, scanRes_firstError]
  exact ⟨rfl, rfl, rfl⟩

/-- Claim C1, witness for the amended theorem at the concrete failing
batch. -/
theorem c1_witness :
    ([uA, uB].filter (fun u => (cacheGet c0.cache u).isNone) = [uA, uB]) ∧
    ([uA, uB].zip ([uA, uB].map (getUncached envC1))
      = [((uA, (⟨uA, []⟩ : Article)))].map (fun p => (p.1, Except.ok p.2))
          ++ (uB, Except.error CErr.fetchFail) :: []) ∧
    (Collector.get_list envC1 c0 [uA, uB]).2.cache
      = [(uA, (⟨uA, []⟩ : Article))].reverse ++ c0.cache :=
  ⟨by decide, by decide,
    (c1_all_or_nothing_amended envC1 c0 [uA, uB] [uA, uB] [(uA, ⟨uA, []⟩)] uB .fetchFail []
      (by decide) (by decide)).2.1⟩

/-- Claim C2: on the six-node fixture with the unique three-hop path
`A → B → C → F` (and the longer alternative through `D` and `E`), both
endpoints lie in the node set and a directed path exists inside it, so the
precondition of `find_path` holds; yet instead of returning the four
articles of the shortest path, `find_path` (and `get_path` built on it)
panics: `binary_dijkstra` initialises every tentative distance to `0`
although its own comment calls `-1` the infinity marker, so its relaxation
loop `while dist[tg] < 0` never runs, leaving `from[target] = None`, and
path reconstruction unwraps that `None`. -/
theorem c2_shortest_path_code_bug :
    uA ∈ [uA, uB, uC, uD, uE, uF] ∧ uF ∈ [uA, uB, uC, uD, uE, uF] ∧
    (Collector.find_path envC2 c0 uA uF [uA, uB, uC, uD, uE, uF]).1
      = .error (.panicked "Option unwrap on None") ∧
    (Collector.get_path envC2 5 c0 uA uF).1 = .error (.panicked "Option unwrap on None") := by
  exact ⟨by decide, by decide, by decide, by decide⟩

/-- Claim C3, counterexample: origin `A` references target `B`, so `B` is
first discovered in the frontier that terminates the expansion loop.  The
visited set handed to `find_path` nevertheless contains `B` (references are
inserted into the visited set at discovery time), and `get_path` completes
without reaching any panic — refuting the claim that the node set lacks the
target and the target-lookup panic fires. -/
theorem c3_counterexample :
    (Collector.gpLoop envC3 uB 3 c0 [uA] []).1 = .ok [uA, uB] ∧
    uB ∈ [uA, uB] ∧
    (Collector.get_path envC3 3 c0 uA uB).1 = .ok [⟨uB, []⟩] := by
  exact ⟨by decide, by decide, by decide⟩

/-- Claim C3, amended: for distinct origin and target, whenever the
expansion loop of `get_path` terminates successfully, the visited set it
hands to `find_path` does contain the target, because every discovered
reference is added to the visited set in the very round that discovers it;
the target-lookup panic of `find_path` is therefore unreachable from
`get_path` with distinct endpoints (only `origin = target` violates the
precondition, and then the panic is on the origin lookup). -/
theorem c3_target_in_visited_amended (env : Env) (og tg : URL) (fuel : Nat) (c : CState)
    (ns' : List URL) (c' : CState) (hne : og ≠ tg)
    (h : Collector.gpLoop env tg fuel c [og] [] = (.ok ns', c')) :
    tg ∈ ns' := by
  cases fuel with
  | zero => simp [Collector.gpLoop] at h
  | succ k =>
    unfold Collector.gpLoop at h
    rw [if_neg (by simp only [List.mem_singleton]; exact fun hh => hne hh.symm)] at h
    split at h
    · simp at h
    · rename_i ts2 ns2 c2 heq
      exact gpLoop_mem env tg k _ _ _ _ _ (nbRound_sub env c [og] [] ts2 ns2 c2 heq) h

/-- Claim C3, witness for the amended theorem on the two-node fixture. -/
theorem c3_witness : uA ≠ uB ∧ uB ∈ [uA, uB] :=
  ⟨by decide,
    c3_target_in_visited_amended envC3 uA uB 3 c0 [uA, uB]
      (Collector.gpLoop envC3 uB 3 c0 [uA] []).2 (by decide)
      (Prod.ext_iff.mpr ⟨by decide, rfl⟩)⟩

/-- Claim C4, counterexample: with `A` referencing only `B`, a depth-2
neighbourhood query returns both articles — the reference `B` discovered in
the final (and only) round of expansion is part of the result, so the
returned set does not exclude the frontier computed in the final round (the
claim would predict the single article `A`). -/
theorem c4_counterexample :
    (Collector.get_neighbourhood envC3 c0 uA 2).1 = .ok [⟨uA, [uB]⟩, ⟨uB, []⟩] ∧
    (Collector.get_neighbourhood envC3 c0 uA 2).1 ≠ .ok [⟨uA, [uB]⟩] := by
  exact ⟨by decide, by decide⟩

/-- Claim C4, amended: `get_neighbourhood` performs `depth − 1` expansion
rounds, and depth `0` and depth `1` both return an empty list for every
start node and every transport; but the visited set whose batch fetch is
returned includes the frontier computed in the final round: after the
single round of a depth-2 query the visited set contains the start node and
every reference of its article. -/
theorem c4_depth_boundary_amended :
    (∀ (env : Env) (c : CState) (u : URL),
        (Collector.get_neighbourhood env c u 0).1 = .ok [] ∧
        (Collector.get_neighbourhood env c u 1).1 = .ok []) ∧
    (∀ (env : Env) (u : URL) (refs ns2 : List URL) (c2 : CState),
        env u = .ok refs →
        Collector.nbLoop env 1 c0 [u] [] = (.ok ns2, c2) →
        u ∈ ns2 ∧ ∀ r ∈ refs, r ∈ ns2) := by
  constructor
  · intro env c u
    exact ⟨rfl, rfl⟩
  · intro env u refs ns2 c2 henv hrun
    have hr : Collector.nbRound env c0 [u] []
        = (.ok ((refs.foldl Collector.discStep ([u], [])).2,
                (refs.foldl Collector.discStep ([u], [])).1),
           ⟨[(u, ⟨u, refs⟩)], 1, [u]⟩) := by
      simp [Collector.nbRound, Collector.get_list, cacheGet, getUncached, henv,
        Collector.scanRes, Collector.discover, c0, insertNew]
    rw [show (1 : Nat) = 0 + 1 from rfl] at hrun
    unfold Collector.nbLoop at hrun
    rw [hr] at hrun
    unfold Collector.nbLoop at hrun
    simp only [Prod.mk.injEq, Except.ok.injEq] at hrun
    obtain ⟨h1, _⟩ := hrun
    subst h1
    refine ⟨foldl_discStep_mono refs ([u], []) u (by simp), ?_⟩
    intro r hr2
    exact foldl_discStep_mem refs ([u], []) r hr2

/-- Claim C4, witness for the amended theorem on the two-node fixture. -/
theorem c4_witness :
    (envC3 uA = .ok [uB]) ∧
    (uA ∈ [uA, uB] ∧ ∀ r ∈ [uB], r ∈ [uA, uB]) :=
  ⟨by decide,
    c4_depth_boundary_amended.2 envC3 uA [uB] [uA, uB]
      ⟨[(uA, ⟨uA, [uB]⟩)], 1, [uA]⟩ (by decide) (by decide)⟩

/-- Well-formedness of the cache: every stored article carries the key it
is stored under (an invariant `Collector::get` maintains, since a fetched
article is parsed with the requested URL stamped into it). -/
def cacheWF (c : CState) : Prop := ∀ p ∈ c.cache, p.2.url = p.1

/-- Lemma: `Collector::get` preserves cache well-formedness. -/
theorem get_preserves_wf (env : Env) (c : CState) (u : URL) (h : cacheWF c) :
    cacheWF (Collector.get env c u).2 := by
  unfold cacheWF at h ⊢
  unfold Collector.get
  dsimp only
  cases hv : cacheGet c.cache u with
  | some a => exact h
  | none =>
    cases henv : env u with
    | error e => exact h
    | ok refs =>
      intro p hp
      rcases List.mem_cons.1 hp with rfl | hp2
      · rfl
      · exact h p hp2

/-- On a well-formed cache, a successful `Collector::get` returns an
article stamped with the requested URL. -/
theorem get_ok_url (env : Env) (c : CState) (u : URL) (a : Article)
    (hwf : cacheWF c) (h : (Collector.get env c u).1 = .ok a) : a.url = u := by
  unfold Collector.get at h
  dsimp only at h
  cases hv : cacheGet c.cache u with
  | some b =>
    rw [hv] at h
    dsimp only at h
    obtain rfl : b = a := by injection h
    rcases Option.map_eq_some'.1 hv with ⟨p, hfind, hp2⟩
    have h1 : p.1 = u := by
      have := List.find?_some hfind
      simpa using this
    have h2 : p ∈ c.cache := List.mem_of_find?_eq_some hfind
    rw [← hp2, hwf p h2, h1]
  | none =>
    rw [hv] at h
    cases henv : env u with
    | error e => rw [henv] at h; simp at h
    | ok refs =>
      rw [henv] at h
      dsimp only at h
      obtain rfl : (⟨u, refs⟩ : Article) = a := by injection h
      rfl

/-- Claim C5: a cache hit returns the cached article unchanged, mutates
neither cache nor fetch log (no transport fetch is issued), and cached
entries survive any later `get` — so repeated `get`s of a cached id keep
returning the identical article; a miss with a successful fetch performs
exactly one fetch, inserts the parsed article under the requested id, and
returns it. -/
theorem c5_cache_idempotence :
    (∀ (env : Env) (c : CState) (u : URL) (a : Article),
        cacheGet c.cache u = some a →
        (Collector.get env c u).1 = .ok a ∧
        (Collector.get env c u).2.cache = c.cache ∧
        (Collector.get env c u).2.fetchLog = c.fetchLog) ∧
    (∀ (env : Env) (c : CState) (u v : URL) (a : Article),
        cacheGet c.cache u = some a →
        cacheGet (Collector.get env c v).2.cache u = some a) ∧
    (∀ (env : Env) (c : CState) (u : URL) (refs : List URL),
        cacheGet c.cache u = none → env u = .ok refs →
        (Collector.get env c u).1 = .ok ⟨u, refs⟩ ∧
        (Collector.get env c u).2.cache = (u, ⟨u, refs⟩) :: c.cache ∧
        (Collector.get env c u).2.fetchLog = c.fetchLog ++ [u]) := by
  refine ⟨?_, ?_, ?_⟩
  · intro env c u a h
    unfold Collector.get
    dsimp only
    rw [h]
    exact ⟨rfl, rfl, rfl⟩
  · intro env c u v a h
    unfold Collector.get
    dsimp only
    cases hv : cacheGet c.cache v with
    | some b => exact h
    | none =>
      cases henv : env v with
      | error e => exact h
      | ok refs =>
        dsimp only
        have hvu : v ≠ u := by
          intro hh
          subst hh
          rw [hv] at h
          simp at h
        have hne : ((v : URL) == u) = false := beq_eq_false_iff_ne.mpr hvu
        unfold cacheGet at h ⊢
        rw [List.find?_cons_of_neg _ (by simp [hne])]
        exact h
  · intro env c u refs h henv
    unfold Collector.get
    dsimp only
    rw [h, henv]
    exact ⟨rfl, rfl, rfl⟩

/-- Claim C5, witness: hit, persistence and miss conjuncts at concrete
states. -/
theorem c5_witness :
    (cacheGet ([(uA, (⟨uA, []⟩ : Article))] : List (URL × Article)) uA = some ⟨uA, []⟩) ∧
    ((Collector.get envC1 ⟨[(uA, ⟨uA, []⟩)], 1, [uA]⟩ uA).1 = .ok ⟨uA, []⟩) ∧
    (cacheGet (Collector.get envC1 ⟨[(uA, ⟨uA, []⟩)], 1, [uA]⟩ uB).2.cache uA = some ⟨uA, []⟩) ∧
    ((Collector.get envC3 c0 uA).1 = .ok ⟨uA, [uB]⟩) :=
  ⟨by decide,
    (c5_cache_idempotence.1 envC1 ⟨[(uA, ⟨uA, []⟩)], 1, [uA]⟩ uA ⟨uA, []⟩ (by decide)).1,
    c5_cache_idempotence.2.1 envC1 ⟨[(uA, ⟨uA, []⟩)], 1, [uA]⟩ uA uB ⟨uA, []⟩ (by decide),
    (c5_cache_idempotence.2.2 envC3 c0 uA [uB] (by decide) (by decide)).1⟩

/-- Claim C6: on a well-formed cache, a successful order-preserving batch
fetch returns one article per input id, in input order, each stamped with
its input identifier (`map url` recovers the input list, which also fixes
the length); and the traversal is strictly sequential and fail-fast: if the
ids processed so far already fail, appending further ids changes neither
the error nor the final state — the remaining ids are never touched. -/
theorem c6_stable_order :
    (∀ (env : Env) (c : CState) (urls : List URL) (l : List Article) (c2 : CState),
        cacheWF c →
        Collector.get_list_stable env c urls = (.ok l, c2) →
        l.map Article.url = urls) ∧
    (∀ (env : Env) (c : CState) (pre post : List URL) (e : CErr) (c2 : CState),
        Collector.get_list_stable env c pre = (.error e, c2) →
        Collector.get_list_stable env c (pre ++ post) = (.error e, c2)) := by
  constructor
  · intro env c urls
    induction urls generalizing c with
    | nil =>
      intro l c2 hwf h
      simp only [Collector.get_list_stable, Prod.mk.injEq, Except.ok.injEq] at h
      obtain ⟨h1, _⟩ := h
      subst h1
      rfl
    | cons u rest ih =>
      intro l c2 hwf h
      unfold Collector.get_list_stable at h
      rcases hg : Collector.get env c u with ⟨r, cm⟩
      rw [hg] at h
      cases r with
      | error e => simp at h
      | ok a =>
        dsimp only at h
        rcases hrest : Collector.get_list_stable env cm rest with ⟨r2, c3⟩
        rw [hrest] at h
        cases r2 with
        | error e => simp at h
        | ok l2 =>
          dsimp only at h
          simp only [Prod.mk.injEq, Except.ok.injEq] at h
          obtain ⟨h1, _⟩ := h
          subst h1
          have hurl : a.url = u := get_ok_url env c u a hwf (by rw [hg])
          have hwf2 : cacheWF cm := by
            have hh := get_preserves_wf env c u hwf
            rwa [hg] at hh
          have hmap := ih cm l2 c3 hwf2 hrest
          simp [hmap, hurl]
  · intro env c pre
    induction pre generalizing c with
    | nil =>
      intro post e c2 h
      simp [Collector.get_list_stable] at h
    | cons u t ih =>
      intro post e c2 h
      unfold Collector.get_list_stable at h
      simp only [List.cons_append]
      unfold Collector.get_list_stable
      rcases hg : Collector.get env c u with ⟨r, cm⟩
      rw [hg] at h
      cases r with
      | error e0 =>
        dsimp only at h ⊢
        exact h
      | ok a =>
        dsimp only at h ⊢
        rcases hrest : Collector.get_list_stable env cm t with ⟨r2, c3⟩
        rw [hrest] at h
        cases r2 with
        | ok l2 => simp at h
        | error e2 =>
          dsimp only at h
          simp only [Prod.mk.injEq, Except.error.injEq] at h
          obtain ⟨h1, h2⟩ := h
          subst h1; subst h2
          rw [ih cm post _ _ hrest]

/-- Claim C6, witness: a successful two-element stable fetch whose output
identifiers match the input, and a failing first id short-circuiting the
rest. -/
theorem c6_witness :
    ([(⟨uA, [uB]⟩ : Article), ⟨uB, []⟩].map Article.url = [uA, uB]) ∧
    (Collector.get_list_stable envC1 c0 ([uB] ++ [uA]) = (.error .fetchFail, ⟨[], 1, [uB]⟩)) :=
  ⟨c6_stable_order.1 envC3 c0 [uA, uB] [⟨uA, [uB]⟩, ⟨uB, []⟩]
      ⟨[(uB, ⟨uB, []⟩), (uA, ⟨uA, [uB]⟩)], 2, [uA, uB]⟩
      (by intro p hp; simp [c0] at hp) (by decide),
    c6_stable_order.2 envC1 c0 [uB] [uA] .fetchFail ⟨[], 1, [uB]⟩ (by decide)⟩

/-- Claim C7, counterexample: `Main_Page` is a blacklisted namespace per the
claim, yet `URL::new` accepts it (the prefix-blacklist loop is commented out
in the source and the surviving colon test does not catch it); a blacklisted
`_(disambiguation)` suffix hidden behind a fragment is accepted (the
fragment is stripped after, not before, the suffix check); and an input
lacking the domain is accepted as long as the `/wiki/` path prefix is
there. -/
theorem c7_counterexample :
    URLnew ("https://en.wikipedia.org/wiki/Main_Page".toList) = .ok ("Main_Page".toList) ∧
    URLnew ("https://en.wikipedia.org/wiki/Foo_(disambiguation)#x".toList)
      = .ok ("Foo_(disambiguation)".toList) ∧
    URLnew ("/wiki/Tree".toList) = .ok ("Tree".toList) := by
  exact ⟨by decide, by decide, by decide⟩

/-- Claim C7, amended: construction strips an optional domain prefix and
fails when the `/wiki/` path prefix is then absent; it fails when the
remaining body contains a colon (which covers every colon namespace, but
not `Main_Page`, which is accepted), and fails when the body — before any
fragment stripping — ends in `_(disambiguation)`; otherwise it succeeds and
only then strips a trailing fragment.  The domain is optional: a bare
`/wiki/…` path is accepted. -/
theorem c7_validation_amended :
    (∀ s : Str, wikiArticlePre.isPrefixOf (stripDomainOpt s) = false →
        URLnew s = .error .missingPre) ∧
    (∀ body : Str, hasChar ':' body = true →
        URLnew (wikiDomain ++ wikiArticlePre ++ body) = .error (.blacklistedPre [])) ∧
    (∀ body : Str, hasChar ':' body = false →
        disambigSuf.isSuffixOf body = true →
        URLnew (wikiDomain ++ wikiArticlePre ++ body)
          = .error (.blacklistedSuf disambigSuf)) ∧
    (∀ body : Str, hasChar ':' body = false →
        disambigSuf.isSuffixOf body = false →
        URLnew (wikiArticlePre ++ body) = .ok (dropFrag body)) ∧
    (URLnew ("https://en.wikipedia.org/wiki/Main_Page".toList) = .ok ("Main_Page".toList)) ∧
    (URLnew ("https://en.wikipedia.org/wiki/Foo_(disambiguation)#x".toList)
      = .ok ("Foo_(disambiguation)".toList)) := by
  refine ⟨?_, ?_, ?_, ?_, by decide, by decide⟩
  · intro s h
    simp [URLnew, extract_body, dropPreOpt, h]
  · intro body h
    simp [URLnew, extract_body, List.append_assoc, stripDomainOpt_append, dropPreOpt_append, h]
  · intro body h1 h2
    simp [URLnew, extract_body, List.append_assoc, stripDomainOpt_append, dropPreOpt_append,
      h1, wikiSuffixBlacklist, h2]
  · intro body h1 h2
    simp [URLnew, extract_body, stripDomainOpt, dropPreOpt_dom_pre, dropPreOpt_append,
      h1, wikiSuffixBlacklist, h2]

/-- Claim C7, witness: the colon rule at `Help:X` and the accepting branch
at `Tree` without a domain. -/
theorem c7_witness :
    (hasChar ':' ("Help:X".toList) = true ∧
      URLnew (wikiDomain ++ wikiArticlePre ++ "Help:X".toList) = .error (.blacklistedPre [])) ∧
    (hasChar ':' ("Tree".toList) = false ∧
      disambigSuf.isSuffixOf ("Tree".toList) = false ∧
      URLnew (wikiArticlePre ++ "Tree".toList) = .ok (dropFrag ("Tree".toList))) :=
  ⟨⟨by decide, c7_validation_amended.2.1 ("Help:X".toList) (by decide)⟩,
    ⟨by decide, by decide,
      c7_validation_amended.2.2.2.1 ("Tree".toList) (by decide) (by decide)⟩⟩

/-- Claim C8: the reference extractor scans left to right, captures each
in-wiki anchor-href path up to the next quote, silently drops captures
rejected by identifier validation (here `/wiki/Help:X`, rejected for its
colon), and on the claim's literal input returns exactly the set
containing `Tree`; a line that ends inside a started anchor-href capture is
the only parse failure, reported as `UnexpectedEOL`. -/
theorem c8_reference_extraction :
    Article.parse ("Base".toList)
        ("<a href=\"/wiki/Tree\">Tree</a> and <a href=\"/wiki/Help:X\">Help</a>".toList)
      = .ok ⟨"Base".toList, ["Tree".toList]⟩ ∧
    URLnew ("/wiki/Help:X".toList) = .error (.blacklistedPre []) ∧
    Article.parse ("Base".toList) ("<a href=\"/wiki/Tree".toList) = .error .UnexpectedEOL := by
  exact ⟨by decide, by decide, by decide⟩

/-- Claim C9: when origin equals target the expansion loop of `get_path`
exits before its first round, so `find_path` receives the empty node set
and the run ends in the origin-lookup panic — not in a returned path and
not in an ordinary error value. -/
theorem c9_selfpath_origin_panic (env : Env) (c : CState) (og : URL) (fuel : Nat) :
    Collector.gpLoop env og (fuel + 1) c [og] [] = (.ok [], c) ∧
    Collector.get_path env (fuel + 1) c og og
      = (.error (.panicked "Origin for required path is not in given neighbourhood."), c) := by
  have h1 : Collector.gpLoop env og (fuel + 1) c [og] [] = (.ok [], c) := by
    unfold Collector.gpLoop
    rw [if_pos (List.mem_singleton.mpr rfl)]
  refine ⟨h1, ?_⟩
  unfold Collector.get_path
  rw [h1]
  exact rfl

/-- Claim C10: for every body free of colon, hash and the blacklisted
suffix, `URL::new` on the canonical address succeeds with that body and
`to_string` reproduces the original input exactly. -/
theorem c10_roundtrip (body : Str)
    (h1 : hasChar ':' body = false)
    (h2 : hasChar '#' body = false)
    (h3 : disambigSuf.isSuffixOf body = false) :
    URLnew (wikiDomain ++ wikiArticlePre ++ body) = .ok body ∧
    urlToString body = wikiDomain ++ wikiArticlePre ++ body := by
  have hall : ∀ ch ∈ body, (ch == '#') = false := by
    simp only [hasChar] at h2
    simpa using h2
  have hfrag : dropFrag body = body := dropFrag_eq_self body hall
  constructor
  · simp [URLnew, extract_body, List.append_assoc, stripDomainOpt_append, dropPreOpt_append,
      h1, wikiSuffixBlacklist, h3, hfrag]
  · rfl

/-- Claim C10, witness at the body `Tree`. -/
theorem c10_witness :
    (hasChar ':' ("Tree".toList) = false ∧ hasChar '#' ("Tree".toList) = false ∧
      disambigSuf.isSuffixOf ("Tree".toList) = false) ∧
    URLnew (wikiDomain ++ wikiArticlePre ++ "Tree".toList) = .ok ("Tree".toList) :=
  ⟨⟨by decide, by decide, by decide⟩,
    (c10_roundtrip ("Tree".toList) (by decide) (by decide) (by decide)).1⟩

end Wikigraph
